import Mathlib

/-!
Shallow embedding of the gophstream relay pipeline: the data model
(internal/models), the consistency store (internal/storage MemoryStorage
over a Keeper), the durable keeper's SQL semantics (internal/bdkeeper
BDKeeper), the relay scheduler loop (internal/apiservice ApiService) and
the publish adapter (internal/controllers ExtController), together with
theorems settling the claims about them.

Go maps become association lists with first-match lookup and in-place
replacement on insert; Go time.Time becomes an integer timestamp; fallible
collaborators (database pool, JSON marshalling, the Kafka producer) become
explicit result parameters or function-valued parameters, so that each
embedded function branches on exactly the results the Go code branches on.
-/

namespace Gophstream

/-- Message mirrors models.Message: ID, Content, CreatedAt, Processed
(internal/models, src/unnamed/part_002). CreatedAt is modelled as an
integer timestamp. -/
structure Message where
  ID : Int
  Content : String
  CreatedAt : Int
  Processed : Bool
deriving Repr, DecidableEq

/-- Filter mirrors models.Filter as used by ApiService.ProcessMessages and
BDKeeper.GetMessages: an optional processed-flag predicate (a Go *bool,
nil meaning no filtering). -/
structure Filter where
  Processed : Option Bool
deriving Repr, DecidableEq

/-- Pagination mirrors models.Pagination: Limit and Offset. -/
structure Pagination where
  Limit : Int
  Offset : Int
deriving Repr, DecidableEq

/-- StorageMessage mirrors the alias type StorageMessage = map[int]models.Message
(src/unnamed/part_001 line 19), modelled as an association list. -/
abbrev StorageMessage := List (Int × Message)

/-- Lookup in the association-list model of a Go map: first entry whose key
matches. -/
def mapLookup (m : StorageMessage) (k : Int) : Option Message :=
  match m with
  | [] => none
  | (k₀, v₀) :: rest => if k₀ = k then some v₀ else mapLookup rest k

/-- Insert into the association-list model of a Go map: replace the first
entry with the given key in place, or append a fresh entry at the end. -/
def mapInsert (m : StorageMessage) (k : Int) (v : Message) : StorageMessage :=
  match m with
  | [] => [(k, v)]
  | (k₀, v₀) :: rest =>
      if k₀ = k then (k, v) :: rest else (k₀, v₀) :: mapInsert rest k v

@[simp] theorem mapLookup_nil (k : Int) : mapLookup [] k = none := rfl

theorem mapLookup_mapInsert (m : StorageMessage) (k k' : Int) (v : Message) :
    mapLookup (mapInsert m k v) k' = if k = k' then some v else mapLookup m k' := by
  induction m with
  | nil =>
      by_cases h : k = k' <;> simp [mapInsert, mapLookup, h]
  | cons p rest ih =>
      obtain ⟨k₀, v₀⟩ := p
      by_cases h₀ : k₀ = k
      · subst h₀
        by_cases h : k₀ = k' <;> simp [mapInsert, mapLookup, h]
      · by_cases h : k₀ = k'
        · subst h
          have hne : ¬ k = k₀ := fun hh => h₀ hh.symm
          simp [mapInsert, mapLookup, h₀, hne]
        · simp [mapInsert, mapLookup, h₀, h, ih]

theorem mapLookup_mapInsert_self (m : StorageMessage) (k : Int) (v : Message) :
    mapLookup (mapInsert m k v) k = some v := by
  simp [mapLookup_mapInsert]

theorem mapLookup_mapInsert_ne (m : StorageMessage) (k k' : Int) (v : Message)
    (h : k ≠ k') : mapLookup (mapInsert m k v) k' = mapLookup m k' := by
  simp [mapLookup_mapInsert, h]

theorem mapLookup_isSome_mapInsert (m : StorageMessage) (k k' : Int) (v : Message)
    (h : (mapLookup m k').isSome) : (mapLookup (mapInsert m k v) k').isSome := by
  rw [mapLookup_mapInsert]
  by_cases hk : k = k' <;> simp [hk, h]

/-- KeeperErr stands for the error values the storage layer produces or
propagates: ErrNotFound (src/unnamed/part_001 line 15), a propagated
database error, or a task/adapter error carrying a message string. -/
inductive KeeperErr where
  | errNotFound
  | dbError (msg : String)
deriving Repr, DecidableEq

/-- Durable-store effect of BDKeeper.UpdateMessagesProcessed
(internal/bdkeeper/bdKeeper.go lines 211-219): the SQL statement
UPDATE messages SET processed = true WHERE id = ANY($1) sets the processed
column of every row whose id occurs in the list, leaving all other rows and
all other columns unchanged. -/
def keeperUpdateMessagesProcessed (db : StorageMessage) (ids : List Int) :
    StorageMessage :=
  db.map fun p => (p.1, if p.1 ∈ ids then { p.2 with Processed := true } else p.2)

/-- Pagination applied the way the keeper's SQL applies LIMIT and OFFSET:
drop Offset rows, then take Limit rows. -/
def applyPagination (p : Pagination) (l : List Message) : List Message :=
  (l.drop p.Offset.toNat).take p.Limit.toNat

/-- Row-selection effect of BDKeeper.GetMessages (internal/bdkeeper/bdKeeper.go
lines 174-208): with a nil filter every row is returned, otherwise only rows
whose processed column equals the filter value, bounded by LIMIT/OFFSET. The
row order is the model list order. -/
def keeperGetMessages (db : StorageMessage) (filter : Filter)
    (pagination : Pagination) : List Message :=
  applyPagination pagination
    ((db.filter fun p =>
        match filter.Processed with
        | none => true
        | some b => p.2.Processed = b).map Prod.snd)

/-- MemState pairs the durable store contents (the keeper side) with the
in-memory mirror map of MemoryStorage (src/unnamed/part_001). -/
structure MemState where
  db : StorageMessage
  messages : StorageMessage
deriving Repr, DecidableEq

/-- Mirror-update loop of MemoryStorage.UpdateMessagesProcessed
(src/unnamed/part_001 lines 110-118): for each id in order, if the id exists
in the mirror its entry's Processed flag is set and the loop continues;
at the first id missing from the mirror the function logs and returns
ErrNotFound at once, keeping the mutations already made and not visiting the
remaining ids. -/
def updateMirrorLoop (messages : StorageMessage) (ids : List Int) :
    StorageMessage × Option KeeperErr :=
  match ids with
  | [] => (messages, none)
  | id :: rest =>
      match mapLookup messages id with
      | some message =>
          updateMirrorLoop (mapInsert messages id { message with Processed := true }) rest
      | none => (messages, some .errNotFound)

/-- MemoryStorage.UpdateMessagesProcessed (src/unnamed/part_001 lines 98-121):
first the keeper call (line 100); on keeper error the error is returned with
nothing else done; on keeper success the mirror lock is taken and the mirror
loop runs. The keeper call's own success or failure is the keeperFails
parameter; on success its durable effect is the ANY-update above. -/
def updateMessagesProcessed (s : MemState) (ids : List Int)
    (keeperFails : Option String) : MemState × Option KeeperErr :=
  match keeperFails with
  | some e => (s, some (.dbError e))
  | none =>
      let db := keeperUpdateMessagesProcessed s.db ids
      let r := updateMirrorLoop s.messages ids
      ({ db := db, messages := r.1 }, r.2)

/-- MemoryStorage.InsertMessage (src/unnamed/part_001 lines 67-83): under the
mirror lock the keeper insert runs; on keeper error the error is returned and
the mirror is untouched; on success the inserted message's ID field is set to
the id the keeper returned and the mirror entry at that id is written. The
keeper call is abstracted by its result. -/
def insertMessage (messages : StorageMessage) (message : Message)
    (keeperResult : Except String Int) : StorageMessage × Option KeeperErr :=
  match keeperResult with
  | .error e => (messages, some (.dbError e))
  | .ok id => (mapInsert messages id { message with ID := id }, none)

/-- Decimal digit value of a character, none for a non-digit, following the
per-character check of strconv.Atoi. -/
def digitVal (c : Char) : Option Nat :=
  if '0' ≤ c ∧ c ≤ '9' then some (c.toNat - '0'.toNat) else none

/-- Accumulating decimal parse over a character list: every character must be
a digit. -/
def parseDigits (acc : Nat) : List Char → Option Nat
  | [] => some acc
  | c :: rest =>
      match digitVal c with
      | some d => parseDigits (acc * 10 + d) rest
      | none => none

/-- Model of Go strconv.Atoi: an optional leading sign followed by one or
more decimal digits (an empty string or any other character fails), with a
range error when the value does not fit a 64-bit int. -/
def goAtoi (s : String) : Option Int :=
  let stripped : Bool × List Char :=
    match s.data with
    | '+' :: rest => (false, rest)
    | '-' :: rest => (true, rest)
    | rest => (false, rest)
  match stripped.2 with
  | [] => none
  | ds =>
      match parseDigits 0 ds with
      | none => none
      | some n =>
          let v : Int := if stripped.1 then -(n : Int) else (n : Int)
          if -(2 ^ 63) ≤ v ∧ v < 2 ^ 63 then some v else none

/-- Poll-interval computation of NewApiService (internal/apiservice/service.go
lines 49-54): strconv.Atoi on the configured string; on any parse error the
interval falls back to 3000. -/
def newApiServiceTaskInterval (raw : String) : Int :=
  match goAtoi raw with
  | some n => n
  | none => 3000

/-- Filter built on every timer fire (internal/apiservice/service.go lines
101-104): processed = false. -/
def tickFilter : Filter := { Processed := some false }

/-- Pagination built on every timer fire (internal/apiservice/service.go
lines 106-108): Limit 100, Offset left at its zero value. -/
def tickPagination : Pagination := { Limit := 100, Offset := 0 }

/-- SelectEvent is one arm of the select in ApiService.ProcessMessages
(internal/apiservice/service.go lines 91-123): context cancellation, a value
arriving on the results channel (an int, or a value of another dynamic type),
or a ticker fire. -/
inductive SelectEvent where
  | ctxDone
  | result (job : Option Int)
  | tick
deriving Repr, DecidableEq

/-- LoopEffect is an observable action of one iteration of the loop body:
exiting the loop, submitting a task for a message to the worker pool
(CreateTask, lines 140-158), or the one batched mark-processed call
(doWork, lines 161-168). -/
inductive LoopEffect where
  | exit
  | dispatchTask (m : Message)
  | batchUpdate (ids : List Int)
deriving Repr, DecidableEq

/-- One iteration of the ProcessMessages loop body (internal/apiservice/
service.go lines 90-124) over the accumulator named result in the code.
ctx.Done: return. A results-channel value: append it to the accumulator when
the int type assertion holds, no store write on this path. Ticker fire: query
the storage with tickFilter and tickPagination; a query error returns from
the loop; otherwise every returned message is wrapped in a task and submitted
to the pool, and then, if the accumulator is non-empty, one batch update with
the accumulated ids is issued and the accumulator is cleared. The storage
query is abstracted as a function parameter. -/
def loopStep (storage : Filter → Pagination → Except String (List Message))
    (acc : List Int) : SelectEvent → List Int × List LoopEffect
  | .ctxDone => (acc, [.exit])
  | .result job =>
      match job with
      | some j => (acc ++ [j], [])
      | none => (acc, [])
  | .tick =>
      match storage tickFilter tickPagination with
      | .error _ => (acc, [.exit])
      | .ok messages =>
          let dispatch := messages.map LoopEffect.dispatchTask
          if acc ≠ [] then ([], dispatch ++ [.batchUpdate acc])
          else (acc, dispatch)

/-- ExtController.SendMessageToKafka (src/unnamed/part_003 lines 33-49):
marshal the message to JSON, send the bytes to the topic message_topic, and
return (message.ID, nil) on success and (0, err) when either step fails.
Marshalling and the producer are abstracted as function parameters. -/
def sendMessageToKafka (marshal : Message → Except String (List Nat))
    (kafkaSend : String → List Nat → Option String) (message : Message) :
    Int × Option String :=
  match marshal message with
  | .error e => (0, some e)
  | .ok bytes =>
      match kafkaSend "message_topic" bytes with
      | some e => (0, some e)
      | none => (message.ID, none)

/-- Task closure built by ApiService.CreateTask (internal/apiservice/
service.go lines 142-156): when the dynamic type assertion on the payload
fails nothing happens and nil is returned; otherwise the external publish
call runs, a publish error is wrapped and returned with nothing emitted, and
on publish success the returned identifier is emitted onto the results
channel and nil is returned. The first component collects the identifiers the
task emits via AddResults. -/
def taskRun (external : Message → Int × Option String) (data : Option Message) :
    List Int × Option String :=
  match data with
  | none => ([], none)
  | some msg =>
      match external msg with
      | (_, some e) => ([], some ("failed to create order task: " ++ e))
      | (id, none) => ([id], none)

/-- WgOp is a sync.WaitGroup counter operation. -/
inductive WgOp where
  | add (n : Int)
  | done
deriving Repr, DecidableEq

/-- WaitGroup operations performed by ApiService.Start (internal/apiservice/
service.go lines 69-73): a.wg.Add(1) before the goroutine launch. -/
def startWgOps : List WgOp := [.add 1]

/-- WaitGroup operations performed by ApiService.ProcessMessages from entry
to any of its returns (internal/apiservice/service.go lines 80-125): the
function body contains no wg.Add, no wg.Done and no deferred wg.Done, so the
list is empty on every path, including the ctx.Done return. -/
def processMessagesWgOps : List WgOp := []

/-- WaitGroup counter after a list of operations, starting from zero. -/
def wgCounter (ops : List WgOp) : Int :=
  ops.foldl (fun c op => match op with | .add n => c + n | .done => c - 1) 0

/-- wg.Wait() returns exactly when the counter has reached zero. -/
def wgWaitReturns (c : Int) : Prop := c = 0

/-- StoreEvent is one step of a Consistency Store method in program order:
taking or releasing the mirror lock, the durable-store (keeper) call, or a
mirror mutation. -/
inductive StoreEvent where
  | lock
  | unlock
  | keeperCall
  | mirrorWrite
deriving Repr, DecidableEq

/-- Program-order event trace of MemoryStorage.InsertMessage (src/unnamed/
part_001 lines 67-83): s.mx.Lock() with a deferred Unlock (lines 68-69), then
the keeper insert (line 72); on keeper error the deferred unlock runs at the
return, on success the mirror write (lines 79-80) precedes the deferred
unlock. -/
def insertMessageTrace (keeperFails : Bool) : List StoreEvent :=
  if keeperFails then [.lock, .keeperCall, .unlock]
  else [.lock, .keeperCall, .mirrorWrite, .unlock]

/-- Program-order event trace of MemoryStorage.UpdateMessagesProcessed
(src/unnamed/part_001 lines 98-121): the keeper call first (line 100); on
keeper error the function returns without touching the lock; on success
s.mx.Lock() (line 106), the loop's mirror writes, and the deferred unlock.
mirrorWrites is the number of mirror entries the loop mutates. -/
def updateMessagesProcessedTrace (keeperFails : Bool) (mirrorWrites : Nat) :
    List StoreEvent :=
  if keeperFails then [.keeperCall]
  else [.keeperCall, .lock] ++ List.replicate mirrorWrites .mirrorWrite ++ [.unlock]

/-- Does some keeper call in the trace happen while the lock is held? The
depth argument counts currently held acquisitions. -/
def keeperCallUnderLockAux : List StoreEvent → Nat → Bool
  | [], _ => false
  | .lock :: rest, d => keeperCallUnderLockAux rest (d + 1)
  | .unlock :: rest, d => keeperCallUnderLockAux rest (d - 1)
  | .keeperCall :: rest, d => decide (0 < d) || keeperCallUnderLockAux rest d
  | .mirrorWrite :: rest, d => keeperCallUnderLockAux rest d

/-- Whether a method trace performs its durable-store call while holding the
mirror lock. -/
def keeperCallUnderLock (tr : List StoreEvent) : Bool :=
  keeperCallUnderLockAux tr 0

/-- Capacity of the results channel created by NewApiService (internal/
apiservice/service.go line 58): the make call passes no capacity argument,
producing an unbuffered channel of capacity zero. -/
def resultsChannelCapacity : Nat := 0

/-- A send on a Go channel with no receiver currently ready completes without
blocking exactly when the number of values already buffered is below the
channel capacity. -/
def sendCompletesWithoutReceiver (buffered : Nat) : Bool :=
  buffered < resultsChannelCapacity

theorem mapLookup_eq_some_mem (m : StorageMessage) (k : Int) (v : Message)
    (h : mapLookup m k = some v) : (k, v) ∈ m := by
  induction m with
  | nil => simp [mapLookup] at h
  | cons p rest ih =>
      obtain ⟨k₀, v₀⟩ := p
      by_cases h₀ : k₀ = k
      · subst h₀
        simp [mapLookup] at h
        simp [h]
      · simp [mapLookup, h₀] at h
        exact List.mem_cons_of_mem _ (ih h)

theorem mapLookup_keeperUpdate (db : StorageMessage) (ids : List Int) (k : Int) :
    mapLookup (keeperUpdateMessagesProcessed db ids) k =
      (mapLookup db k).map
        (fun m => if k ∈ ids then { m with Processed := true } else m) := by
  induction db with
  | nil => rfl
  | cons p rest ih =>
      obtain ⟨k₀, v₀⟩ := p
      simp only [keeperUpdateMessagesProcessed, List.map_cons] at ih ⊢
      by_cases h₀ : k₀ = k
      · subst h₀
        simp [mapLookup]
      · simp [mapLookup, h₀, ih]

theorem updateMirrorLoop_spec (ids : List Int) (m : StorageMessage)
    (h : ∀ id ∈ ids, (mapLookup m id).isSome) :
    (updateMirrorLoop m ids).2 = none ∧
    ∀ k, mapLookup (updateMirrorLoop m ids).1 k =
      (mapLookup m k).map
        (fun msg => if k ∈ ids then { msg with Processed := true } else msg) := by
  induction ids generalizing m with
  | nil =>
      refine ⟨rfl, fun k => ?_⟩
      simp only [updateMirrorLoop, List.not_mem_nil, if_false]
      cases mapLookup m k <;> simp
  | cons id rest ih =>
      obtain ⟨msg, hmsg⟩ :=
        Option.isSome_iff_exists.mp (h id (List.mem_cons_self id rest))
      have hstep : updateMirrorLoop m (id :: rest)
          = updateMirrorLoop (mapInsert m id { msg with Processed := true }) rest := by
        simp [updateMirrorLoop, hmsg]
      have hpres : ∀ j ∈ rest,
          (mapLookup (mapInsert m id { msg with Processed := true }) j).isSome := by
        intro j hj
        exact mapLookup_isSome_mapInsert _ _ _ _ (h j (List.mem_cons_of_mem _ hj))
      obtain ⟨herr, hlook⟩ := ih _ hpres
      refine ⟨hstep ▸ herr, fun k => ?_⟩
      rw [hstep, hlook k, mapLookup_mapInsert]
      by_cases hk : id = k
      · subst hk
        rw [hmsg]
        by_cases hr : id ∈ rest <;> simp [hr]
      · have hk' : ¬ k = id := fun hh => hk hh.symm
        simp [hk, List.mem_cons, hk']

theorem keeperCallUnderLockAux_replicate (n : Nat) (l : List StoreEvent) (d : Nat) :
    keeperCallUnderLockAux (List.replicate n .mirrorWrite ++ l) d
      = keeperCallUnderLockAux l d := by
  induction n with
  | zero => rfl
  | succ n ih => simp [List.replicate_succ, keeperCallUnderLockAux, ih]

theorem updateMessagesProcessed_ok (s : MemState) (ids : List Int) :
    updateMessagesProcessed s ids none
      = (⟨keeperUpdateMessagesProcessed s.db ids, (updateMirrorLoop s.messages ids).1⟩,
         (updateMirrorLoop s.messages ids).2) := rfl

/-- C2: after Start (wg.Add(1)) the loop exits on cancellation, but
ProcessMessages performs no WaitGroup operation on any path, so the counter
Stop's wg.Wait() waits on stays at 1 and the wait is never completed by the
loop's termination: the loop goroutine does not signal its completion. -/
theorem C2_stop_wait_never_completed :
    (loopStep (fun _ _ => Except.ok []) [] .ctxDone).2 = [.exit] ∧
    processMessagesWgOps = [] ∧
    wgCounter (startWgOps ++ processMessagesWgOps) = 1 ∧
    ¬ wgWaitReturns (wgCounter (startWgOps ++ processMessagesWgOps)) := by
  refine ⟨rfl, rfl, rfl, ?_⟩
  intro h
  simp [wgCounter, startWgOps, processMessagesWgOps, wgWaitReturns] at h

/-- C3 as stated is false: in MemoryStorage.InsertMessage the keeper insert
runs between s.mx.Lock() and the deferred unlock, so the durable-store call
is performed while the mirror lock is held. -/
theorem C3_counterexample :
    keeperCallUnderLock (insertMessageTrace false) = true := by rfl

/-- C3 amended: in UpdateMessagesProcessed the durable-store call is never
performed while the mirror lock is held (it precedes the lock acquisition),
but in InsertMessage the durable-store call is always performed while the
mirror lock is held, since the lock is taken at function entry and released
only at return. -/
theorem C3_lock_scope (keeperFails : Bool) (mirrorWrites : Nat) :
    keeperCallUnderLock (updateMessagesProcessedTrace keeperFails mirrorWrites) = false ∧
    keeperCallUnderLock (insertMessageTrace keeperFails) = true := by
  constructor
  · cases keeperFails
    · simp [updateMessagesProcessedTrace, keeperCallUnderLock, List.cons_append,
        List.append_assoc, keeperCallUnderLockAux, keeperCallUnderLockAux_replicate]
    · rfl
  · cases keeperFails <;> rfl

/-- C4: the results channel is created with no capacity argument, so its
capacity is 0, not unbounded and not at least the batch limit of 100: with
no receiver ready, even the first send blocks. -/
theorem C4_results_channel_not_batch_sized :
    resultsChannelCapacity = 0 ∧
    sendCompletesWithoutReceiver 0 = false ∧
    ¬ tickPagination.Limit.toNat ≤ resultsChannelCapacity := by decide

/-- C5 as stated is false: with accumulated result ids [7] pending from an
earlier arrival, a tick whose query returns the empty list still issues a
batch-update call carrying [7]. -/
theorem C5_counterexample :
    (loopStep (fun _ _ => Except.ok []) [7] .tick).2 = [.batchUpdate [7]] := by decide

/-- C5 amended: a cycle whose unprocessed query returns an empty result
dispatches zero tasks, and issues a batch-update call exactly when the
accumulator of previously collected results is non-empty, carrying exactly
those accumulated ids (after which the accumulator is cleared). -/
theorem C5_empty_query_cycle
    (storage : Filter → Pagination → Except String (List Message))
    (acc : List Int) (h : storage tickFilter tickPagination = Except.ok []) :
    loopStep storage acc .tick
      = ([], if acc = [] then [] else [LoopEffect.batchUpdate acc]) := by
  by_cases ha : acc = [] <;> simp [loopStep, h, ha]

/-- Witness for C5_empty_query_cycle at a concrete storage and accumulator. -/
theorem C5_empty_query_cycle_witness :
    loopStep (fun _ _ => Except.ok []) [3] .tick = ([], [LoopEffect.batchUpdate [3]]) := by
  have h := C5_empty_query_cycle (fun _ _ => Except.ok []) [3] rfl
  simpa using h

/-- C7: an unparseable (or absent, i.e. empty) poll-interval string falls
back to 3000; the timer-fired cycle's query parameters are processed = false
with limit 100 and offset 0, and the loop's tick behaviour depends on the
storage only through its response to exactly these parameters. -/
theorem C7_interval_fallback_and_query (raw : String) (h : goAtoi raw = none) :
    newApiServiceTaskInterval raw = 3000 ∧
    tickFilter = { Processed := some false } ∧
    tickPagination = { Limit := 100, Offset := 0 } ∧
    ∀ (s₁ s₂ : Filter → Pagination → Except String (List Message)) (acc : List Int),
      s₁ tickFilter tickPagination = s₂ tickFilter tickPagination →
      loopStep s₁ acc .tick = loopStep s₂ acc .tick := by
  refine ⟨?_, rfl, rfl, ?_⟩
  · simp [newApiServiceTaskInterval, h]
  · intro s₁ s₂ acc heq
    simp [loopStep, heq]

/-- Witness for C7_interval_fallback_and_query on the empty string and on a
non-numeric string. -/
theorem C7_interval_fallback_and_query_witness :
    newApiServiceTaskInterval "" = 3000 ∧ newApiServiceTaskInterval "abc" = 3000 := by
  exact ⟨(C7_interval_fallback_and_query "" (by decide)).1,
         (C7_interval_fallback_and_query "abc" (by decide)).1⟩

/-- C9: the publish adapter returns the message's own ID with no error on
success and 0 with the error on failure, and every identifier the task
closure emits onto the results channel is the ID of a message whose publish
returned no error. -/
theorem C9_publish_result_identity (marshal : Message → Except String (List Nat))
    (kafkaSend : String → List Nat → Option String) (msg : Message) :
    ((sendMessageToKafka marshal kafkaSend msg).2 = none →
        (sendMessageToKafka marshal kafkaSend msg).1 = msg.ID) ∧
    ((sendMessageToKafka marshal kafkaSend msg).2 ≠ none →
        (sendMessageToKafka marshal kafkaSend msg).1 = 0) ∧
    (∀ id ∈ (taskRun (fun m => sendMessageToKafka marshal kafkaSend m) (some msg)).1,
        id = msg.ID ∧ (sendMessageToKafka marshal kafkaSend msg).2 = none) := by
  cases hm : marshal msg with
  | error e => simp [sendMessageToKafka, taskRun, hm]
  | ok bytes =>
      cases hk : kafkaSend "message_topic" bytes with
      | some e => simp [sendMessageToKafka, taskRun, hm, hk]
      | none => simp [sendMessageToKafka, taskRun, hm, hk]

/-- Witness for C9_publish_result_identity with a marshaller that always
succeeds, one producer that succeeds and one that fails. -/
theorem C9_publish_result_identity_witness :
    (sendMessageToKafka (fun _ => Except.ok [1]) (fun _ _ => none)
        ⟨5, "a", 0, false⟩).1 = (5 : Int) ∧
    (sendMessageToKafka (fun _ => Except.ok [1]) (fun _ _ => some "down")
        ⟨5, "a", 0, false⟩).1 = (0 : Int) ∧
    (sendMessageToKafka (fun _ => Except.ok [1]) (fun _ _ => none)
        ⟨5, "a", 0, false⟩).2 = none := by
  refine ⟨?_, ?_, ?_⟩
  · exact (C9_publish_result_identity (fun _ => Except.ok [1]) (fun _ _ => none)
      ⟨5, "a", 0, false⟩).1 (by decide)
  · exact (C9_publish_result_identity (fun _ => Except.ok [1]) (fun _ _ => some "down")
      ⟨5, "a", 0, false⟩).2.1 (by decide)
  · exact ((C9_publish_result_identity (fun _ => Except.ok [1]) (fun _ _ => none)
      ⟨5, "a", 0, false⟩).2.2 5 (by decide)).2

/-- C10: a successful InsertMessage writes exactly the mirror entry keyed by
the keeper-assigned id, storing the message with its ID field set to that id,
leaves every other mirror entry unchanged, and reports no error; on keeper
failure the mirror is unchanged and the error is propagated. -/
theorem C10_insert_frame (messages : StorageMessage) (msg : Message)
    (id : Int) (e : String) :
    insertMessage messages msg (Except.ok id)
        = (mapInsert messages id { msg with ID := id }, none) ∧
    mapLookup (insertMessage messages msg (Except.ok id)).1 id
        = some { msg with ID := id } ∧
    (∀ k, k ≠ id →
        mapLookup (insertMessage messages msg (Except.ok id)).1 k
          = mapLookup messages k) ∧
    insertMessage messages msg (Except.error e) = (messages, some (.dbError e)) := by
  refine ⟨rfl, ?_, ?_, rfl⟩
  · simp [insertMessage, mapLookup_mapInsert_self]
  · intro k hk
    simp only [insertMessage]
    exact mapLookup_mapInsert_ne _ _ _ _ (fun hh => hk hh.symm)

/-- Witness for C10_insert_frame: inserting into a one-entry mirror at fresh
id 2 leaves the entry at key 1 unchanged and stores the new message at 2. -/
theorem C10_insert_frame_witness :
    mapLookup (insertMessage [(1, ⟨1, "a", 0, false⟩)] ⟨0, "b", 0, false⟩
        (Except.ok 2)).1 1 = some ⟨1, "a", 0, false⟩ ∧
    mapLookup (insertMessage [(1, ⟨1, "a", 0, false⟩)] ⟨0, "b", 0, false⟩
        (Except.ok 2)).1 2 = some ⟨2, "b", 0, false⟩ := by
  have h := C10_insert_frame [(1, ⟨1, "a", 0, false⟩)] ⟨0, "b", 0, false⟩ 2 "x"
  exact ⟨(h.2.2.1 1 (by decide)).trans (by decide), h.2.1⟩

/-- C1 as stated is false: with the durable store holding unprocessed
messages 1 and 2 and the mirror holding only message 2, a batch update for
[1, 2] whose durable write succeeds commits processed = true for id 2 in the
durable store, yet leaves the mirror entry for id 2 — an id present in the
mirror — with its processed flag still false, because the loop returns at the
miss on id 1 before visiting id 2. -/
theorem C1_counterexample :
    (mapLookup (updateMessagesProcessed
        ⟨[(1, ⟨1, "a", 0, false⟩), (2, ⟨2, "b", 0, false⟩)],
         [(2, ⟨2, "b", 0, false⟩)]⟩ [1, 2] none).1.messages 2).map Message.Processed
      = some false ∧
    (mapLookup (updateMessagesProcessed
        ⟨[(1, ⟨1, "a", 0, false⟩), (2, ⟨2, "b", 0, false⟩)],
         [(2, ⟨2, "b", 0, false⟩)]⟩ [1, 2] none).1.db 2).map Message.Processed
      = some true ∧
    (mapLookup [(2, (⟨2, "b", 0, false⟩ : Message))] 2).isSome = true := by
  decide

/-- C1 amended: when the durable write succeeds, the durable store ends with
processed = true for every id of the batch it holds, regardless of mirror
misses (the durable commit is never blocked by a miss); and when additionally
every id of the batch is present in the mirror, the call returns no error and
the mirror agrees: every batch id present in the mirror has its processed
flag set to true. When some id is missing from the mirror, mirror entries of
ids after the first miss are left unflipped and the call reports not-found. -/
theorem C1_batch_update_consistency (s : MemState) (ids : List Int)
    (hall : ∀ id ∈ ids, (mapLookup s.messages id).isSome) :
    (updateMessagesProcessed s ids none).2 = none ∧
    (∀ id ∈ ids, ∀ m,
        mapLookup (updateMessagesProcessed s ids none).1.messages id = some m →
        m.Processed = true) ∧
    (∀ t : MemState, ∀ id ∈ ids, ∀ m,
        mapLookup (updateMessagesProcessed t ids none).1.db id = some m →
        m.Processed = true) := by
  obtain ⟨herr, hlook⟩ := updateMirrorLoop_spec ids s.messages hall
  refine ⟨?_, ?_, ?_⟩
  · rw [updateMessagesProcessed_ok]
    exact herr
  · intro id hid m hm
    rw [updateMessagesProcessed_ok] at hm
    simp only at hm
    rw [hlook id] at hm
    obtain ⟨v, hv⟩ := Option.isSome_iff_exists.mp (hall id hid)
    rw [hv] at hm
    simp [hid] at hm
    rw [← hm]
  · intro t id hid m hm
    rw [updateMessagesProcessed_ok] at hm
    simp only at hm
    rw [mapLookup_keeperUpdate] at hm
    cases hl : mapLookup t.db id with
    | none => rw [hl] at hm; simp at hm
    | some v =>
        rw [hl] at hm
        simp [hid] at hm
        rw [← hm]

/-- Witness for C1_batch_update_consistency on a one-message state where the
batch id is present in both stores. -/
theorem C1_batch_update_consistency_witness :
    (updateMessagesProcessed ⟨[(1, ⟨1, "a", 0, false⟩)], [(1, ⟨1, "a", 0, false⟩)]⟩
        [1] none).2 = none ∧
    (⟨1, "a", 0, true⟩ : Message).Processed = true := by
  have h := C1_batch_update_consistency
    ⟨[(1, ⟨1, "a", 0, false⟩)], [(1, ⟨1, "a", 0, false⟩)]⟩ [1] (by decide)
  exact ⟨h.1, h.2.1 1 (by decide) ⟨1, "a", 0, true⟩ (by decide)⟩

theorem mem_take_of_mem_of_le {α : Type} {l : List α} {n : Nat} {a : α}
    (hl : l.length ≤ n) (ha : a ∈ l) : a ∈ l.take n := by
  rw [List.take_of_length_le hl]
  exact ha

theorem mem_keeperGetMessages_unprocessed (db : StorageMessage) (k : Int)
    (m : Message) (hdb : mapLookup db k = some m) (hproc : m.Processed = false)
    (hlen : db.length ≤ 100) :
    m ∈ keeperGetMessages db tickFilter tickPagination := by
  have hmem : (k, m) ∈ db := mapLookup_eq_some_mem _ _ _ hdb
  unfold keeperGetMessages applyPagination
  rw [show tickPagination.Offset.toNat = 0 from rfl, List.drop_zero,
      show tickPagination.Limit.toNat = 100 from rfl]
  apply mem_take_of_mem_of_le
  · rw [List.length_map]
    exact le_trans (List.length_filter_le _ _) hlen
  · exact List.mem_map_of_mem Prod.snd
      (List.mem_filter.mpr ⟨hmem, by simp [tickFilter, hproc]⟩)

/-- C6: when the publish call fails for a dispatched message's task, the task
emits nothing onto the results channel and returns the wrapped error; the
durable processed flag of that message is untouched by any batch update not
containing its id, so an unprocessed query over a store of at most the batch
limit returns the message again. -/
theorem C6_publish_failure_no_emit (external : Message → Int × Option String)
    (msg : Message) (e : String) (eid : Int) (db : StorageMessage)
    (m : Message) (ids : List Int)
    (hext : external msg = (eid, some e))
    (hdb : mapLookup db msg.ID = some m)
    (hproc : m.Processed = false)
    (hlen : db.length ≤ 100)
    (hni : msg.ID ∉ ids) :
    taskRun external (some msg) = ([], some ("failed to create order task: " ++ e)) ∧
    mapLookup (keeperUpdateMessagesProcessed db ids) msg.ID = some m ∧
    m ∈ keeperGetMessages (keeperUpdateMessagesProcessed db ids)
        tickFilter tickPagination := by
  have hlook : mapLookup (keeperUpdateMessagesProcessed db ids) msg.ID = some m := by
    rw [mapLookup_keeperUpdate, hdb]
    simp [hni]
  refine ⟨by simp [taskRun, hext], hlook, ?_⟩
  apply mem_keeperGetMessages_unprocessed _ msg.ID _ hlook hproc
  calc (keeperUpdateMessagesProcessed db ids).length
      = db.length := List.length_map _ _
    _ ≤ 100 := hlen

/-- Witness for C6_publish_failure_no_emit: a failing producer, a one-entry
store holding the unprocessed message with id 1, and a batch update for [2]. -/
theorem C6_publish_failure_no_emit_witness :
    taskRun (fun _ => ((0 : Int), some "boom")) (some ⟨1, "a", 0, false⟩)
      = ([], some ("failed to create order task: " ++ "boom")) ∧
    mapLookup (keeperUpdateMessagesProcessed [(1, ⟨1, "a", 0, false⟩)] [2]) 1
      = some ⟨1, "a", 0, false⟩ ∧
    (⟨1, "a", 0, false⟩ : Message) ∈
      keeperGetMessages (keeperUpdateMessagesProcessed [(1, ⟨1, "a", 0, false⟩)] [2])
        tickFilter tickPagination := by
  exact C6_publish_failure_no_emit (fun _ => ((0 : Int), some "boom"))
    ⟨1, "a", 0, false⟩ "boom" 0 [(1, ⟨1, "a", 0, false⟩)] ⟨1, "a", 0, false⟩ [2]
    rfl (by decide) rfl (by decide) (by decide)

/-- C8: with every id of both lists present in the mirror, batch updates are
idempotent and set-like: both calls (and the call on the deduplicated first
list) report no error, after the two overlapping calls the processed flag of
every key in both the mirror and the durable store is its old flag or-ed with
membership in either list (true on the union), and the deduplicated list
produces exactly the same mirror and durable state as the original list. -/
theorem C8_batch_update_set_semantics (s : MemState) (l₁ l₂ : List Int)
    (h₁ : ∀ id ∈ l₁, (mapLookup s.messages id).isSome)
    (h₂ : ∀ id ∈ l₂, (mapLookup s.messages id).isSome) :
    (updateMessagesProcessed s l₁ none).2 = none ∧
    (updateMessagesProcessed (updateMessagesProcessed s l₁ none).1 l₂ none).2 = none ∧
    (updateMessagesProcessed s l₁.dedup none).2 = none ∧
    (∀ k, (mapLookup (updateMessagesProcessed
            (updateMessagesProcessed s l₁ none).1 l₂ none).1.messages k).map
          Message.Processed
        = (mapLookup s.messages k).map
            (fun m => m.Processed || decide (k ∈ l₁) || decide (k ∈ l₂))) ∧
    (∀ k, (mapLookup (updateMessagesProcessed
            (updateMessagesProcessed s l₁ none).1 l₂ none).1.db k).map
          Message.Processed
        = (mapLookup s.db k).map
            (fun m => m.Processed || decide (k ∈ l₁) || decide (k ∈ l₂))) ∧
    (∀ k, mapLookup (updateMessagesProcessed s l₁.dedup none).1.messages k
          = mapLookup (updateMessagesProcessed s l₁ none).1.messages k ∧
        mapLookup (updateMessagesProcessed s l₁.dedup none).1.db k
          = mapLookup (updateMessagesProcessed s l₁ none).1.db k) := by
  obtain ⟨he₁, hl₁⟩ := updateMirrorLoop_spec l₁ s.messages h₁
  have h₂' : ∀ id ∈ l₂, (mapLookup (updateMirrorLoop s.messages l₁).1 id).isSome := by
    intro id hid
    rw [hl₁ id]
    obtain ⟨v, hv⟩ := Option.isSome_iff_exists.mp (h₂ id hid)
    rw [hv]
    rfl
  obtain ⟨he₂, hl₂⟩ := updateMirrorLoop_spec l₂ _ h₂'
  have hd : ∀ id ∈ l₁.dedup, (mapLookup s.messages id).isSome := by
    intro id hid
    exact h₁ id (List.mem_dedup.mp hid)
  obtain ⟨hed, hld⟩ := updateMirrorLoop_spec l₁.dedup s.messages hd
  refine ⟨?_, ?_, ?_, ?_, ?_, ?_⟩
  · rw [updateMessagesProcessed_ok]
    exact he₁
  · simp only [updateMessagesProcessed_ok]
    exact he₂
  · rw [updateMessagesProcessed_ok]
    exact hed
  · intro k
    simp only [updateMessagesProcessed_ok]
    rw [hl₂ k, hl₁ k]
    cases hm : mapLookup s.messages k with
    | none => rfl
    | some v =>
        by_cases hk₁ : k ∈ l₁ <;> by_cases hk₂ : k ∈ l₂ <;> simp [hk₁, hk₂]
  · intro k
    simp only [updateMessagesProcessed_ok]
    rw [mapLookup_keeperUpdate, mapLookup_keeperUpdate]
    cases hm : mapLookup s.db k with
    | none => rfl
    | some v =>
        by_cases hk₁ : k ∈ l₁ <;> by_cases hk₂ : k ∈ l₂ <;> simp [hk₁, hk₂]
  · intro k
    constructor
    · simp only [updateMessagesProcessed_ok]
      rw [hld k, hl₁ k]
      by_cases hk : k ∈ l₁ <;> simp [hk, List.mem_dedup]
    · simp only [updateMessagesProcessed_ok]
      rw [mapLookup_keeperUpdate, mapLookup_keeperUpdate]
      by_cases hk : k ∈ l₁ <;> simp [hk, List.mem_dedup]

/-- Witness for C8_batch_update_set_semantics: a two-message state, first
batch [1, 2], second batch [2, 2] (a duplicate overlapping the first). -/
theorem C8_batch_update_set_semantics_witness :
    (updateMessagesProcessed
        ⟨[(1, ⟨1, "a", 0, false⟩), (2, ⟨2, "b", 0, false⟩)],
         [(1, ⟨1, "a", 0, false⟩), (2, ⟨2, "b", 0, false⟩)]⟩ [1, 2] none).2 = none ∧
    (updateMessagesProcessed (updateMessagesProcessed
        ⟨[(1, ⟨1, "a", 0, false⟩), (2, ⟨2, "b", 0, false⟩)],
         [(1, ⟨1, "a", 0, false⟩), (2, ⟨2, "b", 0, false⟩)]⟩ [1, 2] none).1
        [2, 2] none).2 = none ∧
    (mapLookup (updateMessagesProcessed (updateMessagesProcessed
        ⟨[(1, ⟨1, "a", 0, false⟩), (2, ⟨2, "b", 0, false⟩)],
         [(1, ⟨1, "a", 0, false⟩), (2, ⟨2, "b", 0, false⟩)]⟩ [1, 2] none).1
        [2, 2] none).1.messages 1).map Message.Processed = some true := by
  have h := C8_batch_update_set_semantics
    ⟨[(1, ⟨1, "a", 0, false⟩), (2, ⟨2, "b", 0, false⟩)],
     [(1, ⟨1, "a", 0, false⟩), (2, ⟨2, "b", 0, false⟩)]⟩ [1, 2] [2, 2]
    (by decide) (by decide)
  exact ⟨h.1, h.2.1, (h.2.2.2.1 1).trans (by decide)⟩

end Gophstream
